import Mathlib

/-!
Verification development for the compose-scheduler repository
(scheduler.go, notification.go). The Docker engine API and the HTTP
transport are external collaborators; they are embedded as oracles
(`DockerClient`, `HttpWorld`) whose methods return the outcome the real
call would produce. Each embedded function also emits a trace of the
external calls it makes, in program order, so that properties about which
call happens, with which context, and in which order are provable.
-/

namespace ComposeScheduler

/-- Go context, reduced to its cancellation state: `cancelled = true` means
the context's Done channel is closed. Timeout expiry is a wall-clock event
and is not modelled. -/
structure Ctx where
  cancelled : Bool
deriving Repr, DecidableEq

/-- context.Background(): never cancelled. -/
def contextBackground : Ctx := ⟨false⟩

/-- Label key com.docker.compose.project (scheduler.go:25). -/
def composeProjectLabel : String := "com.docker.compose.project"

/-- Label key com.docker.compose.service (scheduler.go:26). -/
def composeServiceLabel : String := "com.docker.compose.service"

/-- Label key net.reddec.scheduler.cron (scheduler.go:27). -/
def schedulerLabel : String := "net.reddec.scheduler.cron"

/-- Label key net.reddec.scheduler.exec (scheduler.go:28). -/
def commandLabel : String := "net.reddec.scheduler.exec"

/-- Label key net.reddec.scheduler.logs (scheduler.go:29). -/
def logsLabel : String := "net.reddec.scheduler.logs"

/-- types.ExecConfig, restricted to the fields the scheduler sets. -/
structure ExecConfig where
  cmd : List String
  attachStderr : Bool
  attachStdout : Bool
deriving Repr, DecidableEq

/-- Response of ContainerExecCreate: the exec invocation's ID. -/
structure ExecCreateResp where
  id : String
deriving Repr, DecidableEq

/-- container.WaitResponse.Error (a message, when non-nil). -/
structure WaitError where
  message : String
deriving Repr, DecidableEq

/-- container.WaitResponse: optional error plus status code. -/
structure WaitResponse where
  error : Option WaitError
  statusCode : Int
deriving Repr, DecidableEq

/-- Response of ContainerExecInspect, restricted to the inspected field. -/
structure ExecInspectResp where
  exitCode : Int
deriving Repr, DecidableEq

/-- Response of ContainerExecAttach: the bytes readable from attach.Reader,
and the error io.Copy of that reader would report (the code discards it). -/
structure AttachResp where
  output : List String
  copyErr : Option String
deriving Repr, DecidableEq

/-- Oracle for the Docker engine API: each method receives the context the
caller passes and returns the outcome the real call produced. ContainerWait
returns two channels in Go; the select over them is resolved by the oracle
giving the chosen branch directly (inl: the ok channel's response, inr: the
failed channel's error). -/
structure DockerClient where
  containerStart : Ctx → String → Except String Unit
  containerWait : Ctx → String → Sum WaitResponse String
  containerExecCreate : Ctx → String → ExecConfig → Except String ExecCreateResp
  containerExecStart : Ctx → String → Except String Unit
  containerExecAttach : Ctx → String → Except String AttachResp
  containerExecInspect : Ctx → String → Except String ExecInspectResp

/-- Task (scheduler.go:58-64). -/
structure Task where
  service : String
  container : String
  schedule : String
  command : List String
  logging : Bool
deriving Repr, DecidableEq

/-- One external call made by the embedded code, recording the context the
call was issued with. `copyToLog` is the io.Copy of the attached exec output
into the log writer; `httpRequest` is one notifier delivery attempt. -/
inductive Event where
  | containerStart (c : Ctx) (id : String)
  | containerWait (c : Ctx) (id : String)
  | execCreate (c : Ctx) (id : String) (cfg : ExecConfig)
  | execStart (c : Ctx) (execId : String)
  | execAttach (c : Ctx) (execId : String)
  | copyToLog (data : List String)
  | execInspect (c : Ctx) (execId : String)
  | httpRequest (c : Ctx) (n : Nat)
deriving Repr, DecidableEq

/-- True exactly on ContainerExecInspect calls. -/
def Event.isInspect : Event → Bool
  | .execInspect _ _ => true
  | _ => false

/-- True exactly on notifier HTTP delivery attempts. -/
def Event.isHttp : Event → Bool
  | .httpRequest _ _ => true
  | _ => false

/-- The context an event's call was issued with (none for the log copy,
which takes no context). -/
def Event.ctxOf : Event → Option Ctx
  | .containerStart c _ => some c
  | .containerWait c _ => some c
  | .execCreate c _ _ => some c
  | .execStart c _ => some c
  | .execAttach c _ => some c
  | .copyToLog _ => none
  | .execInspect c _ => some c
  | .httpRequest c _ => some c

/-- Scheduler.runService (scheduler.go:201-219): start the container, wait
for its non-running transition, succeed iff the wait response carries no
error and status code 0. -/
def Scheduler.runService (cl : DockerClient) (ctx : Ctx) (task : Task) :
    Except String Unit × List Event :=
  match cl.containerStart ctx task.container with
  | .error err =>
    (.error ("start service " ++ task.service ++ ": " ++ err),
     [Event.containerStart ctx task.container])
  | .ok _ =>
    match cl.containerWait ctx task.container with
    | .inl res =>
      match res.error with
      | some e =>
        (.error ("service " ++ task.service ++ ": " ++ e.message),
         [Event.containerStart ctx task.container, Event.containerWait ctx task.container])
      | none =>
        if res.statusCode ≠ 0 then
          (.error ("service " ++ task.service ++ ": status code " ++ toString res.statusCode),
           [Event.containerStart ctx task.container, Event.containerWait ctx task.container])
        else
          (.ok (),
           [Event.containerStart ctx task.container, Event.containerWait ctx task.container])
    | .inr err =>
      (.error ("wait for service " ++ task.service ++ ": " ++ err),
       [Event.containerStart ctx task.container, Event.containerWait ctx task.container])

/-- Scheduler.execStartService (scheduler.go:159-172): create an exec
invocation (no attached streams) and start it; fire-and-forget. -/
def Scheduler.execStartService (cl : DockerClient) (ctx : Ctx) (task : Task) :
    Except String Unit × List Event :=
  let cfg : ExecConfig := ⟨task.command, false, false⟩
  match cl.containerExecCreate ctx task.container cfg with
  | .error err =>
    (.error ("create exec for " ++ task.service ++ ": " ++ err),
     [Event.execCreate ctx task.container cfg])
  | .ok execID =>
    match cl.containerExecStart ctx execID.id with
    | .error err =>
      (.error ("exec for " ++ task.service ++ ": " ++ err),
       [Event.execCreate ctx task.container cfg, Event.execStart ctx execID.id])
    | .ok _ =>
      (.ok (),
       [Event.execCreate ctx task.container cfg, Event.execStart ctx execID.id])

/-- Scheduler.execAttachService (scheduler.go:174-199): create an exec
invocation with attached stdout/stderr, attach, copy the combined output to
the log writer (io.Copy's return values are discarded), then inspect the
exec and succeed iff the exit code is 0. -/
def Scheduler.execAttachService (cl : DockerClient) (ctx : Ctx) (task : Task) :
    Except String Unit × List Event :=
  let cfg : ExecConfig := ⟨task.command, true, true⟩
  match cl.containerExecCreate ctx task.container cfg with
  | .error err =>
    (.error ("create exec for " ++ task.service ++ ": " ++ err),
     [Event.execCreate ctx task.container cfg])
  | .ok execID =>
    match cl.containerExecAttach ctx execID.id with
    | .error err =>
      (.error ("exec for " ++ task.service ++ ": " ++ err),
       [Event.execCreate ctx task.container cfg, Event.execAttach ctx execID.id])
    | .ok attach =>
      match cl.containerExecInspect ctx execID.id with
      | .error err =>
        (.error ("inspect exec for " ++ task.service ++ ": " ++ err),
         [Event.execCreate ctx task.container cfg, Event.execAttach ctx execID.id,
          Event.copyToLog attach.output, Event.execInspect ctx execID.id])
      | .ok inspect =>
        if inspect.exitCode ≠ 0 then
          (.error ("command returned non-zero code " ++ toString inspect.exitCode),
           [Event.execCreate ctx task.container cfg, Event.execAttach ctx execID.id,
            Event.copyToLog attach.output, Event.execInspect ctx execID.id])
        else
          (.ok (),
           [Event.execCreate ctx task.container cfg, Event.execAttach ctx execID.id,
            Event.copyToLog attach.output, Event.execInspect ctx execID.id])

/-- Scheduler.execService (scheduler.go:151-157): dispatch on the logging
flag. -/
def Scheduler.execService (cl : DockerClient) (ctx : Ctx) (task : Task) :
    Except String Unit × List Event :=
  if task.logging then Scheduler.execAttachService cl ctx task
  else Scheduler.execStartService cl ctx task

/-- Scheduler.runTask (scheduler.go:137-149). The per-task running flag is
an int32 used through CompareAndSwapInt32(running, 0, 1) and a deferred
StoreInt32(running, 0). The function returns the flag's value after the
call, the error result, and the trace of external calls the run made. -/
def Scheduler.runTask (cl : DockerClient) (ctx : Ctx) (running : Nat) (task : Task) :
    Nat × Except String Unit × List Event :=
  if running ≠ 0 then
    -- CompareAndSwapInt32 failed: return the "task is running" error; no
    -- strategy is invoked and nothing is queued.
    (running, .error "task is running", [])
  else
    -- CAS succeeded: the flag is 1 while the body runs; the deferred
    -- StoreInt32(running, 0) makes the final flag 0 on every exit path.
    let r :=
      if task.command.length = 0 then Scheduler.runService cl ctx task
      else Scheduler.execService cl ctx task
    (0, r.1, r.2)

/-- HTTPNotification (notification.go:24-32), the configuration of the
notifier. Durations are abstract ticks. -/
structure HTTPNotification where
  url : String
  retries : Int
  interval : Nat
  method : String
  timeout : Nat
  authorization : String
  userAgent : String
deriving Repr, DecidableEq

/-- Oracle for the HTTP transport: the outcome of the n-th request the
notifier issues, as a function of the request's context — a transport (or
request-construction) error, or the response's status code. Method, URL,
headers and body do not influence any claim and are folded into the
oracle. -/
structure HttpWorld where
  httpDo : Ctx → Nat → Except String Int

/-- HTTPNotification.notify (notification.go:58-87): one delivery attempt.
The request context is context.WithTimeout(context.Background(), Timeout) —
derived from Background, not from the ambient context; timeout expiry is
real time and unmodelled, so the derived context is never cancelled. The
attempt succeeds iff the response status divided by 100 equals 2. -/
def HTTPNotification.notify (ht : HTTPNotification) (world : HttpWorld) (n : Nat) :
    Except String Unit :=
  let reqCtx := contextBackground
  match world.httpDo reqCtx n with
  | .error e => .error ("execute request: " ++ e)
  | .ok status =>
    if status.tdiv 100 ≠ 2 then .error ("status: " ++ toString status)
    else .ok ()

/-- Retry loop of HTTPNotification.Notify (notification.go:34-56), with the
remaining budget `left` as a natural number (Go's int `left` only drives
further iterations while positive, so it is represented by its toNat).
Returns the result, the total number of attempts made so far (n counts the
attempts already made by enclosing iterations), and the trace of HTTP
requests. When the ambient context is cancelled, its Done channel is ready
immediately, so the select between time.After(Interval) and ctx.Done() takes
the Done branch and returns ctx.Err(). -/
def HTTPNotification.notifyLoop (ht : HTTPNotification) (world : HttpWorld)
    (ambient : Ctx) : Nat → Nat → Except String Unit × Nat × List Event
  | n, 0 =>
    match HTTPNotification.notify ht world n with
    | .ok _ => (.ok (), n + 1, [Event.httpRequest contextBackground n])
    | .error _ =>
      (.error "all attempts failed", n + 1, [Event.httpRequest contextBackground n])
  | n, left + 1 =>
    match HTTPNotification.notify ht world n with
    | .ok _ => (.ok (), n + 1, [Event.httpRequest contextBackground n])
    | .error _ =>
      if ambient.cancelled then
        (.error "context canceled", n + 1, [Event.httpRequest contextBackground n])
      else
        let r := HTTPNotification.notifyLoop ht world ambient (n + 1) left
        (r.1, r.2.1, Event.httpRequest contextBackground n :: r.2.2)

/-- HTTPNotification.Notify (notification.go:34-56): attempt delivery with
`left := Retries` additional retries after the first attempt. -/
def HTTPNotification.Notify (ht : HTTPNotification) (world : HttpWorld)
    (ambient : Ctx) : Except String Unit × Nat × List Event :=
  HTTPNotification.notifyLoop ht world ambient 0 ht.retries.toNat

/-- Payload (notification.go:13-22). Timestamps are abstract ticks. The
`error` field carries the json tag omitempty: serialization drops it when
the string is empty (see Payload.jsonFields). -/
structure Payload where
  project : String
  service : String
  container : String
  schedule : String
  started : Nat
  finished : Nat
  failed : Bool
  error : String
deriving Repr, DecidableEq

/-- Names of the fields present in the serialized JSON body of a Payload:
every field carries a plain json tag except `error`, whose omitempty tag
drops it exactly when the string is empty. -/
def Payload.jsonFields (p : Payload) : List String :=
  ["project", "service", "container", "schedule", "started", "finished", "failed"]
    ++ (if p.error = "" then [] else ["error"])

/-- Scheduler (scheduler.go:66-71), restricted to the fields the embedded
methods read; the Docker client is passed separately as the oracle. -/
structure Scheduler where
  project : String
  notification : Option HTTPNotification

/-- True iff the Go error value is nil (the Except is ok). -/
def exceptIsOk : Except String Unit → Bool
  | .ok _ => true
  | .error _ => false

/-- Scheduler.runJob (scheduler.go:106-135): run the task, and if a
notification sink is configured, build the Payload (Failed := err != nil,
Error := err.Error() or "") and hand it to Notify with the ambient context.
Returns the flag after the call, the Payload submitted to the notifier (none
when no sink is configured), and the trace (the run's external calls
followed by the notifier's HTTP requests). The Notify error itself is only
logged (scheduler.go:130-134). -/
def Scheduler.runJob (sc : Scheduler) (cl : DockerClient) (world : HttpWorld)
    (ctx : Ctx) (running : Nat) (t : Task) (started finished : Nat) :
    Nat × Option Payload × List Event :=
  let r := Scheduler.runTask cl ctx running t
  let errMessage :=
    match r.2.1 with
    | .error e => e
    | .ok _ => ""
  match sc.notification with
  | none => (r.1, none, r.2.2)
  | some ht =>
    let payload : Payload :=
      { project := sc.project, service := t.service, container := t.container,
        schedule := t.schedule, started := started, finished := finished,
        failed := !exceptIsOk r.2.1, error := errMessage }
    let n := HTTPNotification.Notify ht world ctx
    (r.1, some payload, r.2.2 ++ n.2.2)

/-- Go strconv.ParseBool: accepts exactly these twelve strings, anything
else is a parse error. -/
def parseBool : String → Except String Bool
  | "1" => .ok true
  | "t" => .ok true
  | "T" => .ok true
  | "TRUE" => .ok true
  | "true" => .ok true
  | "True" => .ok true
  | "0" => .ok false
  | "f" => .ok false
  | "F" => .ok false
  | "FALSE" => .ok false
  | "false" => .ok false
  | "False" => .ok false
  | _ => .error "invalid syntax"

/-- One container returned by ContainerList: its ID and its label map,
as an association list (first binding wins, as in a Go map there is at most
one binding per key; lookups of absent keys yield the zero value ""). -/
structure ContainerSummary where
  id : String
  labels : List (String × String)
deriving Repr, DecidableEq

/-- Go map indexing c.Labels[k]: the bound value, or the zero value "" when
the key is absent. -/
def getLabel (labels : List (String × String)) (k : String) : String :=
  (labels.lookup k).getD ""

/-- Body of the loop of Scheduler.listTasks (scheduler.go:234-257) for one
container. `split` is the external shellquote.Split library function. The
command label is tokenized only when its value is non-empty; otherwise args
stays nil. An unparsable logs label defaults to false. -/
def taskOfContainer (split : String → Except String (List String))
    (c : ContainerSummary) : Except String Task :=
  let service := getLabel c.labels composeServiceLabel
  let v := getLabel c.labels commandLabel
  let argsE : Except String (List String) :=
    if v ≠ "" then
      match split v with
      | .error e => .error ("parse command in service " ++ service ++ ": " ++ e)
      | .ok cmd => .ok cmd
    else .ok []
  match argsE with
  | .error e => .error e
  | .ok args =>
    let isLoggingEnabled :=
      match parseBool (getLabel c.labels logsLabel) with
      | .ok b => b
      | .error _ => false
    .ok { container := c.id, schedule := getLabel c.labels schedulerLabel,
          service := service, command := args, logging := isLoggingEnabled }

/-- Scheduler.listTasks (scheduler.go:221-260): the filtered ContainerList
result is the oracle-provided `list`; each container is materialized into a
Task, aborting on the first malformed command label. -/
def Scheduler.listTasks (split : String → Except String (List String))
    (list : List ContainerSummary) : Except String (List Task) :=
  list.mapM (taskOfContainer split)

/-- How one guarded run of a task exits: normal return, error return, or
panic unwinding. Go's defer runs the deferred StoreInt32 on all three. -/
inductive ExecExit where
  | ok
  | err (msg : String)
  | panicked (msg : String)
deriving Repr, DecidableEq

/-- State of one task's scheduling entry: the int32 running flag
(scheduler.go:89), the number of executions currently between a successful
CompareAndSwapInt32 and the deferred StoreInt32, and the number of triggers
queued for later execution (the code has no queue, so no transition ever
increases it). -/
structure GuardState where
  flag : Nat
  inFlight : Nat
  pending : Nat
deriving Repr, DecidableEq

/-- Observable label of a step of one task's scheduling entry. -/
inductive GuardLabel where
  | trigger
  | finish (o : ExecExit)
deriving Repr, DecidableEq

/-- Concurrency behaviour of Scheduler.runTask around the running flag
(scheduler.go:137-141), one task's entry in isolation. A cron trigger runs
CompareAndSwapInt32(running, 0, 1): with flag 0 it wins and an execution
enters flight; with flag non-zero runTask returns the "task is running"
error and the trigger is discarded with no other effect. An in-flight
execution finishing with any exit (including panic unwinding) runs the
deferred StoreInt32(running, 0). -/
inductive GuardStep : GuardState → GuardLabel → GuardState → Prop
  | acquire (s : GuardState) : s.flag = 0 →
      GuardStep s .trigger ⟨1, s.inFlight + 1, s.pending⟩
  | skip (s : GuardState) : s.flag ≠ 0 →
      GuardStep s .trigger s
  | release (s : GuardState) (o : ExecExit) : 0 < s.inFlight →
      GuardStep s (.finish o) ⟨0, s.inFlight - 1, s.pending⟩

/-- States reachable from the initial `running := new(int32)` entry
(flag 0, nothing in flight, nothing pending). -/
inductive GuardReachable : GuardState → Prop
  | init : GuardReachable ⟨0, 0, 0⟩
  | step {s s' : GuardState} {l : GuardLabel} :
      GuardReachable s → GuardStep s l s' → GuardReachable s'

/-- Docker oracle where every call succeeds and every exit status is 0. -/
def noopClient : DockerClient where
  containerStart := fun _ _ => .ok ()
  containerWait := fun _ _ => .inl ⟨none, 0⟩
  containerExecCreate := fun _ _ _ => .ok ⟨"e1"⟩
  containerExecStart := fun _ _ => .ok ()
  containerExecAttach := fun _ _ => .ok ⟨["out"], none⟩
  containerExecInspect := fun _ _ => .ok ⟨0⟩

/-- HTTP transport where every request gets status 200. -/
def okWorld : HttpWorld := ⟨fun _ _ => .ok 200⟩

/-- HTTP transport whose first request gets status 500 and later ones 204. -/
def flakyWorld : HttpWorld := ⟨fun _ n => if n = 0 then .ok 500 else .ok 204⟩

/-- HTTP transport where every request gets status 500. -/
def failWorld : HttpWorld := ⟨fun _ _ => .ok 500⟩

/-- Cancellation-respecting HTTP transport: a request issued under a
cancelled context reports the cancellation, otherwise it gets status 200. -/
def cancelAwareWorld : HttpWorld :=
  ⟨fun c _ => if c.cancelled then .error "context canceled" else .ok 200⟩

/-- Notifier configuration fixture (the defaults of notification.go). -/
def sampleNotification : HTTPNotification := ⟨"http://sink", 5, 12, "POST", 30, "", ""⟩

/-- Notifier configuration fixture with 3 retries. -/
def sampleNotification3 : HTTPNotification := ⟨"http://sink", 3, 12, "POST", 30, "", ""⟩

/-- Scheduler fixture with a notification sink configured. -/
def sampleScheduler : Scheduler := ⟨"proj", some sampleNotification⟩

/-- Task fixture with no command tokens. -/
def sampleTask : Task := ⟨"web", "c1", "@daily", [], false⟩

/-- Task fixture with command tokens, logging disabled. -/
def sampleExecTask : Task := ⟨"web", "c1", "@daily", ["nginx", "-s", "reload"], false⟩

/-- Task fixture with command tokens, logging enabled. -/
def sampleLogTask : Task := ⟨"web", "c1", "@daily", ["nginx", "-s", "reload"], true⟩

/-- Container fixture whose command label is present but empty. -/
def sampleContainer : ContainerSummary :=
  ⟨"c1", [(composeServiceLabel, "web"), (schedulerLabel, "@daily"), (commandLabel, "")]⟩

/-- shellquote.Split stand-in for fixtures; never consulted by the claims
that use it. -/
def sampleSplit : String → Except String (List String) := fun _ => .error "unused"

/-- Invariant of one task's scheduling entry: the flag mirrors the number of
in-flight executions, never more than one execution is in flight, and no
trigger is ever queued. -/
theorem guardReachable_invariant {s : GuardState} (h : GuardReachable s) :
    s.flag = s.inFlight ∧ s.inFlight ≤ 1 ∧ s.pending = 0 := by
  induction h with
  | init => exact ⟨rfl, by decide, rfl⟩
  | step hr hs ih =>
    obtain ⟨h1, h2, h3⟩ := ih
    cases hs with
    | acquire h0 =>
      refine ⟨?_, ?_, h3⟩ <;> simp_all
    | skip h0 => exact ⟨h1, h2, h3⟩
    | release o hpos =>
      refine ⟨?_, ?_, h3⟩ <;> simp_all

/-- C2: at most one execution of a task is in flight at any instant. The
guard is acquired by an atomic compare-and-swap from 0 to 1
(scheduler.go:138); a trigger arriving while the flag is non-zero makes
runTask return immediately with the "task is running" error, performing no
external call (empty trace) and leaving the flag untouched; in the step
model, every reachable state has at most one in-flight execution and an
empty queue, and a trigger against a held guard leaves the state unchanged
(nothing is queued for later). -/
theorem runguard_single_flight :
    (∀ (cl : DockerClient) (ctx : Ctx) (r : Nat) (task : Task), r ≠ 0 →
      Scheduler.runTask cl ctx r task = (r, .error "task is running", []))
    ∧ (∀ s, GuardReachable s → s.inFlight ≤ 1 ∧ s.pending = 0)
    ∧ (∀ s s', s.flag ≠ 0 → GuardStep s .trigger s' → s' = s) := by
  refine ⟨?_, ?_, ?_⟩
  · intro cl ctx r task hr
    simp [Scheduler.runTask, hr]
  · intro s hs
    exact ⟨(guardReachable_invariant hs).2.1, (guardReachable_invariant hs).2.2⟩
  · intro s s' hflag hstep
    cases hstep with
    | acquire h0 => exact absurd h0 hflag
    | skip h0 => rfl

/-- Witness for C2 at a concrete input: a trigger with the flag already 1
returns the "task is running" error, makes no external call, and leaves the
flag at 1. -/
theorem runguard_single_flight_witness :
    Scheduler.runTask noopClient ⟨false⟩ 1 sampleTask = (1, .error "task is running", []) :=
  runguard_single_flight.1 noopClient ⟨false⟩ 1 sampleTask (by decide)

/-- C3: the RunGuard is released on every exit path. In the sequential
embedding, runTask entered with flag 0 always returns with flag 0 (the
deferred StoreInt32 runs after both the normal and the error return of the
strategy); in the step model, finishing an execution with any exit — normal,
error, or panic unwinding — stores 0 regardless of the outcome, and from the
resulting state a subsequent trigger can acquire the guard. -/
theorem runguard_released_on_every_exit :
    (∀ (cl : DockerClient) (ctx : Ctx) (task : Task),
      (Scheduler.runTask cl ctx 0 task).1 = 0)
    ∧ (∀ s s' (o : ExecExit), GuardStep s (.finish o) s' →
      s'.flag = 0 ∧ GuardStep s' .trigger ⟨1, s'.inFlight + 1, s'.pending⟩) := by
  constructor
  · intro cl ctx task
    simp [Scheduler.runTask]
  · intro s s' o h
    cases h with
    | release o hpos => exact ⟨rfl, GuardStep.acquire _ rfl⟩

/-- Witness for C3 at a concrete input: an execution finishing by panic
unwinding still releases the guard, and the next trigger can acquire it. -/
theorem runguard_released_on_every_exit_witness :
    (⟨0, 0, 0⟩ : GuardState).flag = 0 ∧ GuardStep ⟨0, 0, 0⟩ .trigger ⟨1, 1, 0⟩ :=
  runguard_released_on_every_exit.2 ⟨1, 1, 0⟩ ⟨0, 0, 0⟩ (.panicked "boom")
    (GuardStep.release ⟨1, 1, 0⟩ (.panicked "boom") (by decide))

/-- C6: for a task with command tokens and logging disabled, the dispatched
strategy is execStartService; it succeeds exactly when ContainerExecCreate
and ContainerExecStart both succeed, its trace contains no
ContainerExecInspect call, and its outcome is unchanged under any
replacement of the inspect oracle (the exit code of the spawned command is
never inspected and never affects the outcome). -/
theorem exec_detached_fire_and_forget (cl : DockerClient) (ctx : Ctx) (task : Task)
    (hcmd : task.command ≠ []) (hlog : task.logging = false) :
    ((Scheduler.runTask cl ctx 0 task).2.1 = .ok () ↔
      ∃ eid, cl.containerExecCreate ctx task.container ⟨task.command, false, false⟩ = .ok eid ∧
        cl.containerExecStart ctx eid.id = .ok ())
    ∧ (∀ e ∈ (Scheduler.runTask cl ctx 0 task).2.2, e.isInspect = false)
    ∧ (∀ insp, Scheduler.runTask { cl with containerExecInspect := insp } ctx 0 task =
        Scheduler.runTask cl ctx 0 task) := by
  have hlen : task.command.length ≠ 0 := fun h => hcmd (List.length_eq_zero.mp h)
  have hup : ∀ insp, Scheduler.execStartService { cl with containerExecInspect := insp } ctx task
      = Scheduler.execStartService cl ctx task := fun _ => rfl
  have hrt : Scheduler.runTask cl ctx 0 task = (0, Scheduler.execStartService cl ctx task) := by
    simp [Scheduler.runTask, Scheduler.execService, hlen, hlog]
  have hrt' : ∀ insp, Scheduler.runTask { cl with containerExecInspect := insp } ctx 0 task
      = (0, Scheduler.execStartService cl ctx task) := by
    intro insp
    rw [← hup insp]
    simp [Scheduler.runTask, Scheduler.execService, hlen, hlog]
  refine ⟨?_, ?_, ?_⟩
  · rw [hrt]
    unfold Scheduler.execStartService
    cases hc : cl.containerExecCreate ctx task.container ⟨task.command, false, false⟩ with
    | error e => simp [hc]
    | ok eid =>
      cases hs : cl.containerExecStart ctx eid.id with
      | error e => simp [hc, hs]
      | ok u => simp [hc, hs]
  · rw [hrt]
    unfold Scheduler.execStartService
    cases hc : cl.containerExecCreate ctx task.container ⟨task.command, false, false⟩ with
    | error e => simp [hc, Event.isInspect]
    | ok eid =>
      cases hs : cl.containerExecStart ctx eid.id <;> simp [hc, hs, Event.isInspect]
  · intro insp
    rw [hrt' insp, hrt]

/-- Witness for C6 at a concrete input: with the all-succeeding Docker
oracle the detached exec run succeeds, with a trace free of inspect calls
and an outcome independent of the inspect oracle. -/
theorem exec_detached_fire_and_forget_witness :
    ((Scheduler.runTask noopClient ⟨false⟩ 0 sampleExecTask).2.1 = .ok () ↔
      ∃ eid, noopClient.containerExecCreate ⟨false⟩ sampleExecTask.container
          ⟨sampleExecTask.command, false, false⟩ = .ok eid ∧
        noopClient.containerExecStart ⟨false⟩ eid.id = .ok ())
    ∧ (∀ e ∈ (Scheduler.runTask noopClient ⟨false⟩ 0 sampleExecTask).2.2, e.isInspect = false)
    ∧ (∀ insp, Scheduler.runTask { noopClient with containerExecInspect := insp } ⟨false⟩ 0
        sampleExecTask = Scheduler.runTask noopClient ⟨false⟩ 0 sampleExecTask) :=
  exec_detached_fire_and_forget noopClient ⟨false⟩ sampleExecTask (by decide) rfl

/-- C7: for a task with no command tokens, runTask dispatches to runService;
runService starts the unit, waits for its non-running transition, and
succeeds exactly when the wait reports no explicit error and status code 0;
a start error, an explicit wait-response error, a non-zero status code, and
a wait-channel error each yield the corresponding descriptive failure
message. -/
theorem run_strategy_contract (cl : DockerClient) (ctx : Ctx) (task : Task)
    (hcmd : task.command = []) :
    ((Scheduler.runTask cl ctx 0 task).2 = Scheduler.runService cl ctx task)
    ∧ ((Scheduler.runService cl ctx task).1 = .ok () ↔
        cl.containerStart ctx task.container = .ok () ∧
        cl.containerWait ctx task.container = .inl ⟨none, 0⟩)
    ∧ (∀ err, cl.containerStart ctx task.container = .error err →
        (Scheduler.runService cl ctx task).1 =
          .error ("start service " ++ task.service ++ ": " ++ err))
    ∧ (∀ res e, cl.containerStart ctx task.container = .ok () →
        cl.containerWait ctx task.container = .inl res → res.error = some e →
        (Scheduler.runService cl ctx task).1 =
          .error ("service " ++ task.service ++ ": " ++ e.message))
    ∧ (∀ res, cl.containerStart ctx task.container = .ok () →
        cl.containerWait ctx task.container = .inl res → res.error = none →
        res.statusCode ≠ 0 →
        (Scheduler.runService cl ctx task).1 =
          .error ("service " ++ task.service ++ ": status code " ++ toString res.statusCode))
    ∧ (∀ err, cl.containerStart ctx task.container = .ok () →
        cl.containerWait ctx task.container = .inr err →
        (Scheduler.runService cl ctx task).1 =
          .error ("wait for service " ++ task.service ++ ": " ++ err)) := by
  have hlen : task.command.length = 0 := by simp [hcmd]
  refine ⟨?_, ?_, ?_, ?_, ?_, ?_⟩
  · simp [Scheduler.runTask, hlen]
  · unfold Scheduler.runService
    cases hs : cl.containerStart ctx task.container with
    | error e => simp [hs]
    | ok u =>
      cases hw : cl.containerWait ctx task.container with
      | inl res =>
        obtain ⟨oe, scode⟩ := res
        cases oe with
        | some e => simp [hw]
        | none =>
          by_cases h0 : scode = 0
          · subst h0; simp [hw]
          · simp [hw, h0]
      | inr err => simp [hw]
  · intro err hs
    unfold Scheduler.runService
    simp [hs]
  · intro res e hs hw he
    unfold Scheduler.runService
    simp [hs, hw, he]
  · intro res hs hw he h0
    unfold Scheduler.runService
    simp [hs, hw, he, h0]
  · intro err hs hw
    unfold Scheduler.runService
    simp [hs, hw]

/-- Witness for C7 at a concrete input: with the all-succeeding Docker
oracle (wait reports no error and status 0) the run strategy is selected
and succeeds. -/
theorem run_strategy_contract_witness :
    ((Scheduler.runTask noopClient ⟨false⟩ 0 sampleTask).2 =
      Scheduler.runService noopClient ⟨false⟩ sampleTask)
    ∧ ((Scheduler.runService noopClient ⟨false⟩ sampleTask).1 = .ok () ↔
        noopClient.containerStart ⟨false⟩ sampleTask.container = .ok () ∧
        noopClient.containerWait ⟨false⟩ sampleTask.container = .inl ⟨none, 0⟩) :=
  ⟨(run_strategy_contract noopClient ⟨false⟩ sampleTask rfl).1,
   (run_strategy_contract noopClient ⟨false⟩ sampleTask rfl).2.1⟩

/-- C10: for a task with command tokens and logging enabled, the dispatched
strategy is execAttachService; once create and attach succeed, its trace
copies the full attached output to the log sink strictly before the inspect
call; the outcome is unchanged under any replacement of the copy error the
attached reader would report (io.Copy's error is discarded); and the run
succeeds exactly when the inspect call succeeds and reports exit code 0. -/
theorem exec_attached_contract (cl : DockerClient) (ctx : Ctx) (task : Task)
    (hcmd : task.command ≠ []) (hlog : task.logging = true) :
    ((Scheduler.runTask cl ctx 0 task).2 = Scheduler.execAttachService cl ctx task)
    ∧ (∀ eid attach,
        cl.containerExecCreate ctx task.container ⟨task.command, true, true⟩ = .ok eid →
        cl.containerExecAttach ctx eid.id = .ok attach →
        (Scheduler.execAttachService cl ctx task).2 =
          [Event.execCreate ctx task.container ⟨task.command, true, true⟩,
           Event.execAttach ctx eid.id, Event.copyToLog attach.output,
           Event.execInspect ctx eid.id])
    ∧ (∀ ce, (Scheduler.execAttachService
          { cl with containerExecAttach := fun c i =>
              match cl.containerExecAttach c i with
              | .ok a => .ok ⟨a.output, ce⟩
              | .error e => .error e } ctx task).1 =
        (Scheduler.execAttachService cl ctx task).1)
    ∧ (∀ eid attach,
        cl.containerExecCreate ctx task.container ⟨task.command, true, true⟩ = .ok eid →
        cl.containerExecAttach ctx eid.id = .ok attach →
        ((Scheduler.execAttachService cl ctx task).1 = .ok () ↔
          ∃ insp, cl.containerExecInspect ctx eid.id = .ok insp ∧ insp.exitCode = 0)) := by
  have hlen : task.command.length ≠ 0 := fun h => hcmd (List.length_eq_zero.mp h)
  refine ⟨?_, ?_, ?_, ?_⟩
  · simp [Scheduler.runTask, Scheduler.execService, hlen, hlog]
  · intro eid attach hc ha
    unfold Scheduler.execAttachService
    cases hi : cl.containerExecInspect ctx eid.id with
    | error e => simp [hc, ha, hi]
    | ok insp =>
      by_cases h0 : insp.exitCode = 0
      · simp [hc, ha, hi, h0]
      · simp [hc, ha, hi, h0]
  · intro ce
    unfold Scheduler.execAttachService
    cases hc : cl.containerExecCreate ctx task.container ⟨task.command, true, true⟩ with
    | error e => simp [hc]
    | ok eid =>
      cases ha : cl.containerExecAttach ctx eid.id with
      | error e => simp [hc, ha]
      | ok attach =>
        cases hi : cl.containerExecInspect ctx eid.id with
        | error e => simp [hc, ha, hi]
        | ok insp =>
          by_cases h0 : insp.exitCode = 0 <;> simp [hc, ha, hi, h0]
  · intro eid attach hc ha
    unfold Scheduler.execAttachService
    cases hi : cl.containerExecInspect ctx eid.id with
    | error e => simp [hc, ha, hi]
    | ok insp =>
      by_cases h0 : insp.exitCode = 0
      · simp [hc, ha, hi, h0]
      · simp [hc, ha, hi, h0]

/-- Witness for C10 at a concrete input: with the all-succeeding Docker
oracle the attached exec run copies the output before the inspect call,
ignores the copy error, and succeeds because the inspected exit code is 0. -/
theorem exec_attached_contract_witness :
    ((Scheduler.execAttachService noopClient ⟨false⟩ sampleLogTask).2 =
      [Event.execCreate ⟨false⟩ sampleLogTask.container ⟨sampleLogTask.command, true, true⟩,
       Event.execAttach ⟨false⟩ "e1", Event.copyToLog ["out"],
       Event.execInspect ⟨false⟩ "e1"])
    ∧ ((Scheduler.execAttachService noopClient ⟨false⟩ sampleLogTask).1 = .ok () ↔
        ∃ insp, noopClient.containerExecInspect ⟨false⟩ "e1" = .ok insp ∧ insp.exitCode = 0) :=
  ⟨(exec_attached_contract noopClient ⟨false⟩ sampleLogTask (by decide) rfl).2.1
      ⟨"e1"⟩ ⟨["out"], none⟩ rfl rfl,
   (exec_attached_contract noopClient ⟨false⟩ sampleLogTask (by decide) rfl).2.2.2
      ⟨"e1"⟩ ⟨["out"], none⟩ rfl rfl⟩

/-- C9: a discovered unit whose command label is present but bound to the
empty string yields a Task with an empty command list (the tokenizer is
never consulted), and runTask dispatches that task to the run strategy
(start-and-wait), exactly as for an absent label. -/
theorem empty_command_label_uses_run_strategy
    (split : String → Except String (List String)) (cl : DockerClient) (ctx : Ctx)
    (c : ContainerSummary) (h : c.labels.lookup commandLabel = some "") :
    ∃ t, taskOfContainer split c = .ok t ∧ t.command = [] ∧
      Scheduler.listTasks split [c] = .ok [t] ∧
      (Scheduler.runTask cl ctx 0 t).2 = Scheduler.runService cl ctx t := by
  have hv : getLabel c.labels commandLabel = "" := by
    simp [getLabel, h]
  have htask : taskOfContainer split c =
      .ok { container := c.id, schedule := getLabel c.labels schedulerLabel,
            service := getLabel c.labels composeServiceLabel, command := [],
            logging := match parseBool (getLabel c.labels logsLabel) with
                       | .ok b => b
                       | .error _ => false } := by
    simp [taskOfContainer, hv]
  refine ⟨_, htask, rfl, ?_, ?_⟩
  · simp only [Scheduler.listTasks, List.mapM, List.mapM.loop, htask]
    rfl
  · simp [Scheduler.runTask]

/-- Witness for C9 at a concrete input: a container carrying the command
label bound to "" produces a task with no command tokens that dispatches to
the run strategy. -/
theorem empty_command_label_uses_run_strategy_witness :
    ∃ t, taskOfContainer sampleSplit sampleContainer = .ok t ∧ t.command = [] ∧
      Scheduler.listTasks sampleSplit [sampleContainer] = .ok [t] ∧
      (Scheduler.runTask noopClient ⟨false⟩ 0 t).2 =
        Scheduler.runService noopClient ⟨false⟩ t :=
  empty_command_label_uses_run_strategy sampleSplit noopClient ⟨false⟩ sampleContainer
    (by decide)

/-- Every event the notifier's retry loop emits is an HTTP request issued
under the Background-derived request context. -/
theorem notifyLoop_trace_shape (ht : HTTPNotification) (world : HttpWorld) (ambient : Ctx) :
    ∀ left n, ∀ e ∈ (HTTPNotification.notifyLoop ht world ambient n left).2.2,
      ∃ k, e = Event.httpRequest contextBackground k := by
  intro left
  induction left with
  | zero =>
    intro n e he
    cases hnot : HTTPNotification.notify ht world n <;>
      simp [HTTPNotification.notifyLoop, hnot] at he <;>
      exact ⟨n, he⟩
  | succ l ih =>
    intro n e he
    cases hnot : HTTPNotification.notify ht world n with
    | ok u =>
      simp [HTTPNotification.notifyLoop, hnot] at he
      exact ⟨n, he⟩
    | error err =>
      by_cases hc : ambient.cancelled
      · simp [HTTPNotification.notifyLoop, hnot, hc] at he
        exact ⟨n, he⟩
      · simp [HTTPNotification.notifyLoop, hnot, hc] at he
        rcases he with he | he
        · exact ⟨n, he⟩
        · exact ih (n + 1) e he

/-- C1 counterexample: with a notification sink configured and the guard
already held (flag 1), a firing trigger does produce a Payload — with
failed = true and error "task is running" — and it is submitted to the
notifier (the trace contains an HTTP delivery attempt), contradicting the
claim that no notification is sent and no Outcome is produced. -/
theorem guard_skip_notifies_counterexample :
    (Scheduler.runJob sampleScheduler noopClient okWorld ⟨false⟩ 1 sampleTask 3 5).2.1 =
      some ⟨"proj", "web", "c1", "@daily", 3, 5, true, "task is running"⟩
    ∧ Event.httpRequest contextBackground 0 ∈
        (Scheduler.runJob sampleScheduler noopClient okWorld ⟨false⟩ 1 sampleTask 3 5).2.2 := by
  decide

/-- C1 as amended: when a trigger fires while the guard is held, runTask
returns the "task is running" error without invoking any execution strategy
(the run trace is empty — every event of the job is an HTTP one), and runJob
treats this like any failed run: with a notification sink configured it
submits an Outcome with failed = true and error "task is running" to the
notifier; only with no sink configured is no Outcome produced. -/
theorem guard_skip_notifies (sc : Scheduler) (cl : DockerClient) (world : HttpWorld)
    (ctx : Ctx) (r : Nat) (t : Task) (a b : Nat) (hr : r ≠ 0) :
    (Scheduler.runJob sc cl world ctx r t a b).1 = r
    ∧ (Scheduler.runJob sc cl world ctx r t a b).2.1 =
        sc.notification.map (fun _ =>
          ⟨sc.project, t.service, t.container, t.schedule, a, b, true, "task is running"⟩)
    ∧ ∀ e ∈ (Scheduler.runJob sc cl world ctx r t a b).2.2, e.isHttp = true := by
  have hrt : Scheduler.runTask cl ctx r t = (r, .error "task is running", []) := by
    simp [Scheduler.runTask, hr]
  cases hn : sc.notification with
  | none =>
    refine ⟨?_, ?_, ?_⟩ <;> simp [Scheduler.runJob, hrt, hn]
  | some ht =>
    refine ⟨?_, ?_, ?_⟩
    · simp [Scheduler.runJob, hrt, hn]
    · simp [Scheduler.runJob, hrt, hn, exceptIsOk]
    · intro e he
      simp [Scheduler.runJob, hrt, hn, HTTPNotification.Notify] at he
      obtain ⟨k, hk⟩ := notifyLoop_trace_shape ht world ctx ht.retries.toNat 0 e he
      subst hk
      rfl

/-- Witness for the amended C1 at a concrete input: with a sink configured,
the skipped trigger yields a failed "task is running" Outcome. -/
theorem guard_skip_notifies_witness :
    (Scheduler.runJob sampleScheduler noopClient okWorld ⟨false⟩ 2 sampleTask 0 0).1 = 2
    ∧ (Scheduler.runJob sampleScheduler noopClient okWorld ⟨false⟩ 2 sampleTask 0 0).2.1 =
        sampleScheduler.notification.map (fun _ =>
          ⟨sampleScheduler.project, sampleTask.service, sampleTask.container,
           sampleTask.schedule, 0, 0, true, "task is running"⟩)
    ∧ ∀ e ∈ (Scheduler.runJob sampleScheduler noopClient okWorld ⟨false⟩ 2 sampleTask 0 0).2.2,
        e.isHttp = true :=
  guard_skip_notifies sampleScheduler noopClient okWorld ⟨false⟩ 2 sampleTask 0 0 (by decide)

/-- Helper: a string with positive length is not empty. -/
theorem ne_empty_of_length_pos {s : String} (h : 0 < s.length) : s ≠ "" := by
  intro he
  rw [he] at h
  exact absurd h (by decide)

/-- Every error message runService can return is non-empty. -/
theorem runService_error_ne_empty (cl : DockerClient) (ctx : Ctx) (task : Task) :
    ∀ e, (Scheduler.runService cl ctx task).1 = .error e → e ≠ "" := by
  intro e he
  unfold Scheduler.runService at he
  cases hs : cl.containerStart ctx task.container with
  | error err =>
    simp [hs] at he
    subst he
    apply ne_empty_of_length_pos
    simp only [String.length_append]
    have : 0 < "start service ".length := by decide
    omega
  | ok u =>
    cases hw : cl.containerWait ctx task.container with
    | inl res =>
      obtain ⟨oe, scode⟩ := res
      cases oe with
      | some werr =>
        simp [hs, hw] at he
        subst he
        apply ne_empty_of_length_pos
        simp only [String.length_append]
        have : 0 < "service ".length := by decide
        omega
      | none =>
        by_cases h0 : scode = 0
        · subst h0
          simp [hs, hw] at he
        · simp [hs, hw, h0] at he
          subst he
          apply ne_empty_of_length_pos
          simp only [String.length_append]
          have : 0 < "service ".length := by decide
          omega
    | inr err =>
      simp [hs, hw] at he
      subst he
      apply ne_empty_of_length_pos
      simp only [String.length_append]
      have : 0 < "wait for service ".length := by decide
      omega

/-- Every error message execStartService can return is non-empty. -/
theorem execStartService_error_ne_empty (cl : DockerClient) (ctx : Ctx) (task : Task) :
    ∀ e, (Scheduler.execStartService cl ctx task).1 = .error e → e ≠ "" := by
  intro e he
  unfold Scheduler.execStartService at he
  cases hc : cl.containerExecCreate ctx task.container ⟨task.command, false, false⟩ with
  | error err =>
    simp [hc] at he
    subst he
    apply ne_empty_of_length_pos
    simp only [String.length_append]
    have : 0 < "create exec for ".length := by decide
    omega
  | ok eid =>
    cases hst : cl.containerExecStart ctx eid.id with
    | error err =>
      simp [hc, hst] at he
      subst he
      apply ne_empty_of_length_pos
      simp only [String.length_append]
      have : 0 < "exec for ".length := by decide
      omega
    | ok u =>
      simp [hc, hst] at he

/-- Every error message execAttachService can return is non-empty. -/
theorem execAttachService_error_ne_empty (cl : DockerClient) (ctx : Ctx) (task : Task) :
    ∀ e, (Scheduler.execAttachService cl ctx task).1 = .error e → e ≠ "" := by
  intro e he
  unfold Scheduler.execAttachService at he
  cases hc : cl.containerExecCreate ctx task.container ⟨task.command, true, true⟩ with
  | error err =>
    simp [hc] at he
    subst he
    apply ne_empty_of_length_pos
    simp only [String.length_append]
    have : 0 < "create exec for ".length := by decide
    omega
  | ok eid =>
    cases ha : cl.containerExecAttach ctx eid.id with
    | error err =>
      simp [hc, ha] at he
      subst he
      apply ne_empty_of_length_pos
      simp only [String.length_append]
      have : 0 < "exec for ".length := by decide
      omega
    | ok attach =>
      cases hi : cl.containerExecInspect ctx eid.id with
      | error err =>
        simp [hc, ha, hi] at he
        subst he
        apply ne_empty_of_length_pos
        simp only [String.length_append]
        have : 0 < "inspect exec for ".length := by decide
        omega
      | ok insp =>
        by_cases h0 : insp.exitCode = 0
        · simp [hc, ha, hi, h0] at he
        · simp [hc, ha, hi, h0] at he
          subst he
          apply ne_empty_of_length_pos
          simp only [String.length_append]
          have : 0 < "command returned non-zero code ".length := by decide
          omega

/-- Every error message runTask can return is non-empty: the overlap-skip
message is a literal, and every strategy failure message carries a non-empty
descriptive prefix. -/
theorem runTask_error_ne_empty (cl : DockerClient) (ctx : Ctx) (r : Nat) (task : Task) :
    ∀ e, (Scheduler.runTask cl ctx r task).2.1 = .error e → e ≠ "" := by
  intro e he
  by_cases hr : r = 0
  · subst hr
    by_cases hlen : task.command.length = 0
    · simp [Scheduler.runTask, hlen] at he
      exact runService_error_ne_empty cl ctx task e he
    · by_cases hlog : task.logging
      · simp [Scheduler.runTask, Scheduler.execService, hlen, hlog] at he
        exact execAttachService_error_ne_empty cl ctx task e he
      · simp [Scheduler.runTask, Scheduler.execService, hlen, hlog] at he
        exact execStartService_error_ne_empty cl ctx task e he
  · simp [Scheduler.runTask, hr] at he
    subst he
    decide

/-- C5: for every Payload a run produces, the serialized JSON body contains
the "error" field if and only if "failed" is true; when failed is false the
error text is the empty string and the omitempty tag drops the field
entirely. -/
theorem outcome_error_iff_failed (sc : Scheduler) (cl : DockerClient) (world : HttpWorld)
    (ctx : Ctx) (r : Nat) (t : Task) (a b : Nat) (p : Payload)
    (h : (Scheduler.runJob sc cl world ctx r t a b).2.1 = some p) :
    ("error" ∈ p.jsonFields ↔ p.failed = true) := by
  cases hn : sc.notification with
  | none => simp [Scheduler.runJob, hn] at h
  | some ht =>
    simp [Scheduler.runJob, hn] at h
    cases hres : (Scheduler.runTask cl ctx r t).2.1 with
    | ok u =>
      rw [hres] at h
      subst h
      simp [Payload.jsonFields, exceptIsOk]
    | error msg =>
      have hne := runTask_error_ne_empty cl ctx r t msg hres
      rw [hres] at h
      subst h
      simp [Payload.jsonFields, exceptIsOk, hne]

/-- Witness for C5 at a concrete input: a successful run's Payload has
failed = false and no "error" field in its JSON body. -/
theorem outcome_error_iff_failed_witness :
    ("error" ∈ (⟨"proj", "web", "c1", "@daily", 0, 1, false, ""⟩ : Payload).jsonFields ↔
      (⟨"proj", "web", "c1", "@daily", 0, 1, false, ""⟩ : Payload).failed = true) :=
  outcome_error_iff_failed sampleScheduler noopClient okWorld ⟨false⟩ 0 sampleTask 0 1
    ⟨"proj", "web", "c1", "@daily", 0, 1, false, ""⟩ (by decide)

/-- Helper: Go's truncated integer division by 100 equals 2 exactly on the
interval 200..299. -/
theorem tdiv_hundred_eq_two_iff (s : Int) : (s.tdiv 100 = 2) ↔ (200 ≤ s ∧ s ≤ 299) := by
  cases s with
  | ofNat m =>
    rw [show (100 : Int) = Int.ofNat 100 from rfl]
    rw [show (2 : Int) = Int.ofNat 2 from rfl]
    simp only [Int.tdiv, Int.ofNat_eq_coe, Int.natCast_inj]
    omega
  | negSucc m =>
    rw [show (100 : Int) = Int.ofNat 100 from rfl]
    simp only [Int.tdiv, Int.ofNat_eq_coe, Int.negSucc_eq]
    omega

/-- A delivery attempt whose request completes with status s succeeds
exactly when s lies in 200..299. -/
theorem notify_ok_iff_2xx (ht : HTTPNotification) (world : HttpWorld) (n : Nat) (s : Int)
    (h : world.httpDo contextBackground n = .ok s) :
    (HTTPNotification.notify ht world n = .ok () ↔ 200 ≤ s ∧ s ≤ 299) := by
  rw [← tdiv_hundred_eq_two_iff s]
  simp only [HTTPNotification.notify, h]
  by_cases h2 : s.tdiv 100 = 2
  · simp [h2]
  · simp [h2]

/-- The retry loop makes at most left + 1 further attempts. -/
theorem notifyLoop_count_le (ht : HTTPNotification) (world : HttpWorld) (ambient : Ctx) :
    ∀ left n, (HTTPNotification.notifyLoop ht world ambient n left).2.1 ≤ n + left + 1 := by
  intro left
  induction left with
  | zero =>
    intro n
    cases hnot : HTTPNotification.notify ht world n <;>
      simp only [HTTPNotification.notifyLoop, hnot] <;> omega
  | succ l ih =>
    intro n
    cases hnot : HTTPNotification.notify ht world n with
    | ok u =>
      simp only [HTTPNotification.notifyLoop, hnot]
      omega
    | error err =>
      cases hc : ambient.cancelled with
      | true =>
        simp [HTTPNotification.notifyLoop, hnot, hc]
      | false =>
        have h2 := ih (n + 1)
        simp [HTTPNotification.notifyLoop, hnot, hc]
        omega

/-- With the ambient context not cancelled, the retry loop stops with
success right after the first succeeding attempt. -/
theorem notifyLoop_first_success (ht : HTTPNotification) (world : HttpWorld) (ambient : Ctx)
    (ha : ambient.cancelled = false) :
    ∀ left n k, n ≤ k → k ≤ n + left →
      exceptIsOk (HTTPNotification.notify ht world k) = true →
      (∀ j, n ≤ j → j < k → exceptIsOk (HTTPNotification.notify ht world j) = false) →
      (HTTPNotification.notifyLoop ht world ambient n left).1 = .ok ()
        ∧ (HTTPNotification.notifyLoop ht world ambient n left).2.1 = k + 1 := by
  intro left
  induction left with
  | zero =>
    intro n k h1 h2 hk hall
    have hkn : k = n := by omega
    subst hkn
    cases hnot : HTTPNotification.notify ht world k with
    | ok u => simp [HTTPNotification.notifyLoop, hnot]
    | error err =>
      rw [hnot] at hk
      simp [exceptIsOk] at hk
  | succ l ih =>
    intro n k h1 h2 hk hall
    cases hnot : HTTPNotification.notify ht world n with
    | ok u =>
      have hkn : k = n := by
        by_contra hne
        have hlt : n < k := by omega
        have hj := hall n (le_refl n) hlt
        rw [hnot] at hj
        simp [exceptIsOk] at hj
      subst hkn
      simp [HTTPNotification.notifyLoop, hnot]
    | error err =>
      have hkn : n < k := by
        rcases Nat.lt_or_ge n k with h | h
        · exact h
        · have hkn2 : k = n := by omega
          subst hkn2
          rw [hnot] at hk
          simp [exceptIsOk] at hk
      have hrec := ih (n + 1) k (by omega) (by omega) hk
        (fun j hj1 hj2 => hall j (by omega) hj2)
      simp [HTTPNotification.notifyLoop, hnot, ha]
      exact hrec

/-- With the ambient context not cancelled, the retry loop returns the
generic exhaustion error exactly when every attempt in its budget fails. -/
theorem notifyLoop_allFailed_iff (ht : HTTPNotification) (world : HttpWorld) (ambient : Ctx)
    (ha : ambient.cancelled = false) :
    ∀ left n, ((HTTPNotification.notifyLoop ht world ambient n left).1 =
        .error "all attempts failed" ↔
      ∀ j, n ≤ j → j ≤ n + left →
        exceptIsOk (HTTPNotification.notify ht world j) = false) := by
  intro left
  induction left with
  | zero =>
    intro n
    cases hnot : HTTPNotification.notify ht world n with
    | ok u =>
      apply iff_of_false
      · simp [HTTPNotification.notifyLoop, hnot]
      · intro hR
        have hj := hR n (le_refl n) (by omega)
        rw [hnot] at hj
        simp [exceptIsOk] at hj
    | error err =>
      apply iff_of_true
      · simp [HTTPNotification.notifyLoop, hnot]
      · intro j hj1 hj2
        have hjn : j = n := by omega
        subst hjn
        rw [hnot]
        rfl
  | succ l ih =>
    intro n
    cases hnot : HTTPNotification.notify ht world n with
    | ok u =>
      apply iff_of_false
      · simp [HTTPNotification.notifyLoop, hnot]
      · intro hR
        have hj := hR n (le_refl n) (by omega)
        rw [hnot] at hj
        simp [exceptIsOk] at hj
    | error err =>
      have heq : (HTTPNotification.notifyLoop ht world ambient n (l + 1)).1 =
          (HTTPNotification.notifyLoop ht world ambient (n + 1) l).1 := by
        simp [HTTPNotification.notifyLoop, hnot, ha]
      rw [heq, ih (n + 1)]
      constructor
      · intro hR j hj1 hj2
        by_cases hjn : j = n
        · subst hjn
          rw [hnot]
          rfl
        · exact hR j (by omega) (by omega)
      · intro hR j hj1 hj2
        exact hR j (by omega) (by omega)

/-- C4: with retry count R and no ambient cancellation, Notify makes at most
R + 1 delivery attempts; it stops with success immediately after the first
attempt whose response status lies in 200..299 (having made exactly that
attempt's index + 1 attempts); and it returns the generic "all attempts
failed" error exactly when every one of the R + 1 attempts fails. -/
theorem notifier_retry_budget (ht : HTTPNotification) (world : HttpWorld)
    (ambient : Ctx) (R : Nat) (hR : ht.retries = (R : Int))
    (ha : ambient.cancelled = false) :
    ((HTTPNotification.Notify ht world ambient).2.1 ≤ R + 1)
    ∧ (∀ k s, k ≤ R → world.httpDo contextBackground k = .ok s →
        200 ≤ s → s ≤ 299 →
        (∀ j, j < k → exceptIsOk (HTTPNotification.notify ht world j) = false) →
        (HTTPNotification.Notify ht world ambient).1 = .ok ()
          ∧ (HTTPNotification.Notify ht world ambient).2.1 = k + 1)
    ∧ ((HTTPNotification.Notify ht world ambient).1 = .error "all attempts failed"
        ↔ ∀ j, j ≤ R → exceptIsOk (HTTPNotification.notify ht world j) = false) := by
  have hRn : ht.retries.toNat = R := by
    rw [hR]
    exact Int.toNat_natCast R
  unfold HTTPNotification.Notify
  rw [hRn]
  refine ⟨?_, ?_, ?_⟩
  · have h1 := notifyLoop_count_le ht world ambient R 0
    omega
  · intro k s hk hdo h2a h2b hall
    have hkOk : exceptIsOk (HTTPNotification.notify ht world k) = true := by
      rw [(notify_ok_iff_2xx ht world k s hdo).mpr ⟨h2a, h2b⟩]
      rfl
    exact notifyLoop_first_success ht world ambient ha R 0 k (Nat.zero_le k) (by omega)
      hkOk (fun j hj1 hj2 => hall j hj2)
  · have h3 := notifyLoop_allFailed_iff ht world ambient ha R 0
    rw [h3]
    constructor
    · intro hR2 j hj
      exact hR2 j (Nat.zero_le j) (by omega)
    · intro hR2 j hj1 hj2
      exact hR2 j (by omega)

/-- Witness for C4 at a concrete input: retry budget 3, first request gets
status 500 (a failure), second gets 204 (a 2xx): Notify succeeds after
exactly 2 attempts. -/
theorem notifier_retry_budget_witness :
    (HTTPNotification.Notify sampleNotification3 flakyWorld ⟨false⟩).1 = .ok ()
      ∧ (HTTPNotification.Notify sampleNotification3 flakyWorld ⟨false⟩).2.1 = 1 + 1 :=
  (notifier_retry_budget sampleNotification3 flakyWorld ⟨false⟩ 3 rfl rfl).2.1 1 204
    (by decide) rfl (by decide) (by decide)
    (fun j hj => by
      have hj0 : j = 0 := by omega
      subst hj0
      decide)

/-- Every call runService makes is issued with the context it was given. -/
theorem runService_trace_ctx (cl : DockerClient) (ctx : Ctx) (task : Task) :
    ∀ e ∈ (Scheduler.runService cl ctx task).2, e.ctxOf = some ctx := by
  unfold Scheduler.runService
  cases hs : cl.containerStart ctx task.container with
  | error err => simp [hs, Event.ctxOf]
  | ok u =>
    cases hw : cl.containerWait ctx task.container with
    | inl res =>
      obtain ⟨oe, scode⟩ := res
      cases oe with
      | some werr => simp [hs, hw, Event.ctxOf]
      | none =>
        by_cases h0 : scode = 0
        · subst h0
          simp [hs, hw, Event.ctxOf]
        · simp [hs, hw, h0, Event.ctxOf]
    | inr err => simp [hs, hw, Event.ctxOf]

/-- Every call execStartService makes is issued with the context it was
given. -/
theorem execStartService_trace_ctx (cl : DockerClient) (ctx : Ctx) (task : Task) :
    ∀ e ∈ (Scheduler.execStartService cl ctx task).2, e.ctxOf = some ctx := by
  unfold Scheduler.execStartService
  cases hc : cl.containerExecCreate ctx task.container ⟨task.command, false, false⟩ with
  | error err => simp [hc, Event.ctxOf]
  | ok eid =>
    cases hst : cl.containerExecStart ctx eid.id <;> simp [hc, hst, Event.ctxOf]

/-- Every call execAttachService makes is issued with the context it was
given, except the log copy, which takes no context. -/
theorem execAttachService_trace_ctx (cl : DockerClient) (ctx : Ctx) (task : Task) :
    ∀ e ∈ (Scheduler.execAttachService cl ctx task).2,
      e.ctxOf = some ctx ∨ e.ctxOf = none := by
  unfold Scheduler.execAttachService
  cases hc : cl.containerExecCreate ctx task.container ⟨task.command, true, true⟩ with
  | error err => simp [hc, Event.ctxOf]
  | ok eid =>
    cases ha : cl.containerExecAttach ctx eid.id with
    | error err => simp [hc, ha, Event.ctxOf]
    | ok attach =>
      cases hi : cl.containerExecInspect ctx eid.id with
      | error err => simp [hc, ha, hi, Event.ctxOf]
      | ok insp =>
        by_cases h0 : insp.exitCode = 0 <;> simp [hc, ha, hi, h0, Event.ctxOf]

/-- Every runtime call a task run makes is issued with the ambient context
runTask was given (the log copy carries no context). -/
theorem runTask_trace_ctx (cl : DockerClient) (ctx : Ctx) (r : Nat) (task : Task) :
    ∀ e ∈ (Scheduler.runTask cl ctx r task).2.2,
      e.ctxOf = some ctx ∨ e.ctxOf = none := by
  intro e he
  by_cases hr : r = 0
  · subst hr
    by_cases hlen : task.command.length = 0
    · simp [Scheduler.runTask, hlen] at he
      exact Or.inl (runService_trace_ctx cl ctx task e he)
    · by_cases hlog : task.logging
      · simp [Scheduler.runTask, Scheduler.execService, hlen, hlog] at he
        exact execAttachService_trace_ctx cl ctx task e he
      · simp [Scheduler.runTask, Scheduler.execService, hlen, hlog] at he
        exact Or.inl (execStartService_trace_ctx cl ctx task e he)
  · simp [Scheduler.runTask, hr] at he

/-- C8 counterexample: with the ambient context already cancelled and a
cancellation-respecting HTTP transport, the notifier's delivery attempt does
not observe the ambient context: the request goes out under the
Background-derived context and returns success with status 200 instead of a
cancellation error (HTTPNotification.notify builds its request context from
context.Background() plus the timeout, notification.go:59). -/
theorem notifier_request_ignores_ambient_cancel :
    (HTTPNotification.Notify sampleNotification cancelAwareWorld ⟨true⟩).1 = .ok ()
      ∧ (HTTPNotification.Notify sampleNotification cancelAwareWorld ⟨true⟩).2.2 =
          [Event.httpRequest contextBackground 0] :=
  ⟨rfl, rfl⟩

/-- C8 as amended: the ambient cancellation signal propagates to every
runtime call made by the execution strategies (each such call is issued with
the ambient context) and to the notifier's waits between attempts (a
cancelled ambient context aborts the retry loop with the context's error
right after the next failed attempt); but each per-attempt HTTP request runs
under a fresh context derived from Background with only the configured
timeout, so in-flight HTTP attempts do not observe ambient cancellation. -/
theorem ambient_cancel_propagation (cl : DockerClient) (ambient : Ctx) (r : Nat)
    (task : Task) (ht : HTTPNotification) (world : HttpWorld)
    (hc : ambient.cancelled = true)
    (hfail : exceptIsOk (HTTPNotification.notify ht world 0) = false)
    (hr : 0 < ht.retries) :
    (∀ e ∈ (Scheduler.runTask cl ambient r task).2.2,
      e.ctxOf = some ambient ∨ e.ctxOf = none)
    ∧ ((HTTPNotification.Notify ht world ambient).1 = .error "context canceled"
      ∧ (HTTPNotification.Notify ht world ambient).2.1 = 1)
    ∧ (∀ e ∈ (HTTPNotification.Notify ht world ambient).2.2,
      e.ctxOf = some contextBackground) := by
  refine ⟨runTask_trace_ctx cl ambient r task, ?_, ?_⟩
  · obtain ⟨l, hl⟩ : ∃ l, ht.retries.toNat = l + 1 := ⟨ht.retries.toNat - 1, by omega⟩
    unfold HTTPNotification.Notify
    rw [hl]
    cases hnot : HTTPNotification.notify ht world 0 with
    | ok u =>
      rw [hnot] at hfail
      simp [exceptIsOk] at hfail
    | error err =>
      simp [HTTPNotification.notifyLoop, hnot, hc]
  · intro e he
    unfold HTTPNotification.Notify at he
    obtain ⟨k, hk⟩ := notifyLoop_trace_shape ht world ambient ht.retries.toNat 0 e he
    subst hk
    rfl

/-- Witness for the amended C8 at a concrete input: ambient cancelled, an
always-failing transport, retry budget 5 — the run trace carries the ambient
context, the retry loop aborts with "context canceled" after one attempt,
and the attempt itself went out under the Background-derived context. -/
theorem ambient_cancel_propagation_witness :
    (∀ e ∈ (Scheduler.runTask noopClient ⟨true⟩ 0 sampleTask).2.2,
      e.ctxOf = some ⟨true⟩ ∨ e.ctxOf = none)
    ∧ ((HTTPNotification.Notify sampleNotification failWorld ⟨true⟩).1 =
        .error "context canceled"
      ∧ (HTTPNotification.Notify sampleNotification failWorld ⟨true⟩).2.1 = 1)
    ∧ (∀ e ∈ (HTTPNotification.Notify sampleNotification failWorld ⟨true⟩).2.2,
      e.ctxOf = some contextBackground) :=
  ambient_cancel_propagation noopClient ⟨true⟩ 0 sampleTask sampleNotification failWorld
    rfl (by decide) (by decide)

end ComposeScheduler
